import Mathlib

/-!
Verification of the LUFS loudness normalizer (ITU-R BS.1770 / EBU R128)
from src/renderer/loudness-normalizer.js.

The JavaScript number arithmetic is modelled over the real numbers; the
JS -Infinity loudness sentinel is modelled as the `none` case of an
`Option ℝ`.  Stateful parts (the measurement cache, the in-flight
deduplication map and the facade's gain nodes) are modelled by explicit
state passing; the asynchronous measurement promise is split into its
synchronous entry step (`analyzeLUFSCall`, up to creating/joining the
promise) and its completion step (`analyzeLUFSComplete`, the promise
body's try/catch/finally outcome).
-/

namespace LoudnessNormalizer

noncomputable section

open Classical

/-- Constant DEFAULT_TARGET (line 9): -14 LUFS. -/
def DEFAULT_TARGET : ℝ := -14

/-- Constant RAMP_TIME (line 10): 0.4 seconds. -/
def RAMP_TIME : ℝ := 0.4

/-- Constant PEAK_CEILING (line 11): -0.5 dBFS. -/
def PEAK_CEILING : ℝ := -0.5

/-- Constant BLOCK_DURATION (line 14): 400 ms blocks. -/
def BLOCK_DURATION : ℝ := 0.4

/-- Constant BLOCK_OVERLAP (line 15): 75% overlap. -/
def BLOCK_OVERLAP : ℝ := 0.75

/-- Constant ABSOLUTE_GATE (line 16): -70 LUFS. -/
def ABSOLUTE_GATE : ℝ := -70

/-- Constant RELATIVE_GATE (line 17): -10 LU below ungated loudness. -/
def RELATIVE_GATE : ℝ := -10

/-- One biquad section: coefficient arrays b = [b0,b1,b2], a = [1,a1,a2]. -/
structure BiquadCoeffs where
  b0 : ℝ
  b1 : ℝ
  b2 : ℝ
  a1 : ℝ
  a2 : ℝ

/-- One entry of the K_WEIGHTS table (lines 22-31). -/
structure KWeights where
  shelf : BiquadCoeffs
  hp : BiquadCoeffs

/-- K_WEIGHTS[48000] (lines 23-26). -/
def K_WEIGHTS_48000 : KWeights :=
  ⟨⟨1.53512485958697, -2.69169618940638, 1.19839281085285,
      -1.69065929318241, 0.73248077421585⟩,
    ⟨1.0, -2.0, 1.0, -1.99004745483398, 0.99007225036621⟩⟩

/-- K_WEIGHTS[44100] (lines 27-30). -/
def K_WEIGHTS_44100 : KWeights :=
  ⟨⟨1.53090959966428, -2.65116903469122, 1.16903097776360,
      -1.66363794709474, 0.71238064688380⟩,
    ⟨1.0, -2.0, 1.0, -1.98916967210520, 0.98919159781614⟩⟩

/-- getKWeightCoeffs (lines 64-68): table lookup with 48 kHz fallback. -/
def getKWeightCoeffs (sampleRate : ℕ) : KWeights :=
  if sampleRate = 48000 then K_WEIGHTS_48000
  else if sampleRate = 44100 then K_WEIGHTS_44100
  else K_WEIGHTS_48000

/-- One iteration of the Direct Form II transposed recurrence in
applyBiquad (lines 74-79): from state (z1, z2) and input x produce the
output y and the next state. -/
def biquadStep (c : BiquadCoeffs) (z : ℝ × ℝ) (x : ℝ) : ℝ × (ℝ × ℝ) :=
  let y := c.b0 * x + z.1
  (y, (c.b1 * x - c.a1 * y + z.2, c.b2 * x - c.a2 * y))

/-- The loop of applyBiquad over the sample list, threading the filter
state. -/
def applyBiquadAux (c : BiquadCoeffs) : ℝ × ℝ → List ℝ → List ℝ
  | _, [] => []
  | z, x :: xs =>
    let s := biquadStep c z x
    s.1 :: applyBiquadAux c s.2 xs

/-- applyBiquad (lines 70-81): z1, z2 initialized to 0 per invocation. -/
def applyBiquad (samples : List ℝ) (c : BiquadCoeffs) : List ℝ :=
  applyBiquadAux c (0, 0) samples

/-- A decoded multichannel PCM buffer: sampleRate, frame count `length`,
and per-channel sample lists (each of length `length` for a well-formed
buffer). -/
structure AudioBuffer where
  sampleRate : ℕ
  length : ℕ
  channels : List (List ℝ)

/-- A measurement result { lufs, peak } (line 154); `none` models the JS
-Infinity loudness sentinel. -/
structure Measurement where
  lufs : Option ℝ
  peak : ℝ

/-- Channel weight (line 95): surround channels (index ≥ 3) get 1.41,
others 1.0. -/
def channelWeight (ch : ℕ) : ℝ := if 3 ≤ ch then 1.41 else 1

/-- JS Math.round for the nonnegative values used here: round half up. -/
def jsRound (x : ℝ) : ℤ := ⌊x + 1 / 2⌋

/-- blockSamples (line 108): Math.round(BLOCK_DURATION * sampleRate). -/
def blockSamplesOf (sampleRate : ℕ) : ℕ :=
  (jsRound (BLOCK_DURATION * sampleRate)).toNat

/-- stepSamples (line 109): Math.round(blockSamples * (1 - BLOCK_OVERLAP)). -/
def stepSamplesOf (sampleRate : ℕ) : ℕ :=
  (jsRound ((blockSamplesOf sampleRate : ℝ) * (1 - BLOCK_OVERLAP))).toNat

/-- The per-channel inner loop of lines 116-119: sum of squared samples
over indices [start, start + blockSamples). -/
def sumSqRange (data : List ℝ) (start blockSamples : ℕ) : ℝ :=
  ((data.drop start).take blockSamples).foldl (fun s x => s + x * x) 0

/-- The per-block loop body of lines 113-121: channel-weighted sum of
per-channel mean squares for the block starting at `start`. -/
def blockPowerAt (kWeighted : List (List ℝ)) (blockSamples start : ℕ) : ℝ :=
  (kWeighted.enum.map fun p =>
    channelWeight p.1 * (sumSqRange p.2 start blockSamples / blockSamples)).sum

/-- The block loop of line 112: start at 0, step by stepSamples while a
full block fits (start + blockSamples <= length).  The loop is expressed
with a fuel argument; fuel length+1 suffices for any positive step. -/
def blockLoop (kWeighted : List (List ℝ)) (blockSamples step length : ℕ) :
    ℕ → ℕ → List ℝ
  | _, 0 => []
  | start, fuel + 1 =>
    if start + blockSamples ≤ length then
      blockPowerAt kWeighted blockSamples start ::
        blockLoop kWeighted blockSamples step length (start + step) fuel
    else []

/-- K-weighting pass of lines 99-105: each channel is copied and run
through the shelf filter then the high-pass filter. -/
def kWeightedOf (buf : AudioBuffer) : List (List ℝ) :=
  buf.channels.map fun data =>
    let coeffs := getKWeightCoeffs buf.sampleRate
    applyBiquad (applyBiquad data coeffs.shelf) coeffs.hp

/-- The block power sequence of lines 108-123 for a buffer. -/
def blockPowersOf (buf : AudioBuffer) : List ℝ :=
  blockLoop (kWeightedOf buf) (blockSamplesOf buf.sampleRate)
    (stepSamplesOf buf.sampleRate) buf.length 0 (buf.length + 1)

/-- absThreshold (line 128): Math.pow(10, (ABSOLUTE_GATE + 0.691) / 10). -/
def absThreshold : ℝ := (10 : ℝ) ^ ((ABSOLUTE_GATE + 0.691) / 10)

/-- ungated (line 129): blocks.filter(p => p > absThreshold). -/
def ungatedOf (blocks : List ℝ) : List ℝ :=
  blocks.filter fun p => decide (absThreshold < p)

/-- Mean of a list of block powers (lines 133 and 141). -/
def meanOf (l : List ℝ) : ℝ := l.sum / l.length

/-- ungatedLUFS (lines 133-134): -0.691 + 10 * log10(ungatedMean). -/
def ungatedLUFSOf (blocks : List ℝ) : ℝ :=
  -0.691 + 10 * Real.logb 10 (meanOf (ungatedOf blocks))

/-- relThreshold (line 137):
Math.pow(10, (ungatedLUFS + RELATIVE_GATE + 0.691) / 10). -/
def relThresholdOf (blocks : List ℝ) : ℝ :=
  (10 : ℝ) ^ ((ungatedLUFSOf blocks + RELATIVE_GATE + 0.691) / 10)

/-- gated (line 138): blocks.filter(p => p > relThreshold) — the filter
runs over the full block list, not over the absolute-gate survivors. -/
def gatedOf (blocks : List ℝ) : List ℝ :=
  blocks.filter fun p => decide (relThresholdOf blocks < p)

/-- Sample peak of lines 145-152: maximum absolute sample value over all
channels of the original (not K-weighted) buffer. -/
def samplePeak (buf : AudioBuffer) : ℝ :=
  buf.channels.foldl (fun peak data => data.foldl (fun pk x => max pk |x|) peak) 0

/-- measureLUFS (lines 85-155): block powers, absolute gate, relative
gate, gated loudness, sample peak, with the three early returns of lines
125, 130 and 139. -/
def measureLUFS (buf : AudioBuffer) : Measurement :=
  let blocks := blockPowersOf buf
  if blocks.isEmpty then ⟨none, 0⟩
  else if (ungatedOf blocks).isEmpty then ⟨none, 0⟩
  else if (gatedOf blocks).isEmpty then ⟨some (ungatedLUFSOf blocks), 0⟩
  else ⟨some (-0.691 + 10 * Real.logb 10 (meanOf (gatedOf blocks))), samplePeak buf⟩

/-- Track identifiers are opaque strings. -/
abbrev TrackId := String

/-- Stream URLs are strings. -/
abbrev Url := String

/-- The private cache/in-flight state of the module (lines 41-42):
_cache maps a track id to its measurement, _inflight records the track
ids with a pending analysis promise. -/
structure NormState where
  cache : TrackId → Option Measurement
  inflight : TrackId → Bool

/-- What the synchronous part of analyzeLUFS (lines 160-161, 185-186)
does for the caller: return the cached value, join the existing pending
promise, or start a new computation (the only case that fetches). -/
inductive CallResult where
  | cachedHit (m : Measurement)
  | joined
  | started
deriving DecidableEq

/-- Outcome of the promise body of analyzeLUFS: the fetch+decode+measure
succeeded with a measurement, or failed (fetch error, non-ok response or
decode error — all reach the catch block of line 177). -/
inductive FetchOutcome where
  | success (m : Measurement)
  | failure

/-- The synchronous entry of analyzeLUFS (lines 159-161 and 185):
cache hit returns immediately, an in-flight id joins the pending
promise, otherwise the id is marked in-flight and a fetch starts. -/
def analyzeLUFSCall (s : NormState) (trackId : TrackId) : CallResult × NormState :=
  match s.cache trackId with
  | some m => (.cachedHit m, s)
  | none =>
    if s.inflight trackId then (.joined, s)
    else
      (.started,
        { s with inflight := fun t => if t = trackId then true else s.inflight t })

/-- The completion of the analyzeLUFS promise body (lines 163-183): on
success the result is cached and returned; on failure the catch block
resolves the promise with null; the finally block removes the in-flight
marker in both cases. -/
def analyzeLUFSComplete (s : NormState) (trackId : TrackId)
    (outcome : FetchOutcome) : Option Measurement × NormState :=
  match outcome with
  | .success m =>
    (some m,
      { cache := fun t => if t = trackId then some m else s.cache t,
        inflight := fun t => if t = trackId then false else s.inflight t })
  | .failure =>
    (none, { s with inflight := fun t => if t = trackId then false else s.inflight t })

/-- Number of underlying fetches a call performs: only a `started` call
fetches. -/
def fetchCount : CallResult → ℕ
  | .started => 1
  | _ => 0

/-- Run a sequence of synchronous analyzeLUFS entries (concurrent calls
arriving before any completion), collecting each caller's result. -/
def runCalls (s : NormState) : List TrackId → List CallResult × NormState
  | [] => ([], s)
  | id :: rest =>
    let c := analyzeLUFSCall s id
    let r := runCalls c.2 rest
    (c.1 :: r.1, r.2)

/-- Total number of fetches performed by a list of call results. -/
def numFetches (rs : List CallResult) : ℕ := (rs.map fetchCount).sum

/-- peakDBFS (line 197): 20 * Math.log10(data.peak || 1e-10); the JS
short-circuit replaces a zero peak by 1e-10. -/
def peakDBFS (peak : ℝ) : ℝ :=
  20 * Real.logb 10 (if peak = 0 then 1e-10 else peak)

/-- gainDB after the peak-ceiling clamp (lines 195-199): gainDB =
target - lufs, then clamped down to maxGainDB = PEAK_CEILING - peakDBFS
when it exceeds it. -/
def clampedGainDB (target lufs peak : ℝ) : ℝ :=
  let gainDB := target - lufs
  let maxGainDB := PEAK_CEILING - peakDBFS peak
  if maxGainDB < gainDB then maxGainDB else gainDB

/-- computeGain (lines 191-203), as a function of the cache lookup
result: unity when no measurement or the -Infinity sentinel; otherwise
the clamped gain in dB, with the hard 24 dB cap returning unity, then
converted to a linear gain. -/
def computeGain (target : ℝ) (data : Option Measurement) : ℝ :=
  match data with
  | none => 1
  | some d =>
    match d.lufs with
    | none => 1
    | some lufs =>
      let gainDB := clampedGainDB target lufs d.peak
      if 24 < gainDB then 1 else (10 : ℝ) ^ (gainDB / 20)

/-- One of the two playback lanes (audioA / audioB). -/
inductive Lane where
  | A
  | B
deriving DecidableEq

/-- A gain node's scheduled state: the target of the last
setTargetAtTime call and its time constant. -/
structure GainNode where
  target : ℝ
  timeConstant : ℝ

/-- The facade's mutable state (lines 33-42): the enabled flag, the
target loudness, whether the audio context (and with it the two gain
nodes) has been created, the two lanes' gain nodes, and the cache
state. -/
structure FacadeState where
  enabled : Bool
  target : ℝ
  ctxInit : Bool
  nodeA : GainNode
  nodeB : GainNode
  norm : NormState

/-- getGainNode (lines 57-60) restricted to the two lanes. -/
def getNode (s : FacadeState) : Lane → GainNode
  | .A => s.nodeA
  | .B => s.nodeB

/-- Update one lane's gain node. -/
def setNode (s : FacadeState) : Lane → GainNode → FacadeState
  | .A, g => { s with nodeA := g }
  | .B, g => { s with nodeB := g }

/-- initAudioContext (lines 46-55): idempotent; creates the context and
the two gain nodes (fresh nodes have gain 1 and no scheduled ramp). -/
def initAudioContext (s : FacadeState) : FacadeState :=
  if s.ctxInit then s
  else { s with ctxInit := true, nodeA := ⟨1, 0⟩, nodeB := ⟨1, 0⟩ }

/-- applyGain (lines 207-213): no-op when disabled or before the context
exists; otherwise schedules a ramp of the lane's node to
computeGain(trackId) with time constant RAMP_TIME / 3. -/
def applyGain (s : FacadeState) (el : Lane) (trackId : TrackId) : FacadeState :=
  if s.enabled = false ∨ s.ctxInit = false then s
  else setNode s el ⟨computeGain s.target (s.norm.cache trackId), RAMP_TIME / 3⟩

/-- resetGain (lines 215-220): no-op before the context exists;
otherwise schedules a ramp of the lane's node to unity with time
constant RAMP_TIME / 3. -/
def resetGain (s : FacadeState) (el : Lane) : FacadeState :=
  if s.ctxInit = false then s
  else setNode s el ⟨1, RAMP_TIME / 3⟩

/-- setEnabled (lines 252-258): store the flag; when disabling, ramp
both lanes back to unity. -/
def setEnabled (s : FacadeState) (val : Bool) : FacadeState :=
  let s1 := { s with enabled := val }
  if val = false then resetGain (resetGain s1 .A) .B else s1

/-- setTarget (lines 260-262). -/
def setTarget (s : FacadeState) (lufs : ℝ) : FacadeState :=
  { s with target := lufs }

/-- How far analyzeAndApply got synchronously. -/
inductive AAPhase where
  | disabled
  | appliedCached
  | awaiting
deriving DecidableEq

/-- The synchronous prefix of analyzeAndApply (lines 222-235): early
return when disabled; lazy context init; on a cache hit apply the gain
immediately; otherwise ramp the lane to unity (time constant 0.05) and
issue the analyzeLUFS call whose promise is then awaited. -/
def analyzeAndApplyStart (s : FacadeState) (el : Lane) (_url : Url)
    (trackId : TrackId) : AAPhase × FacadeState :=
  if s.enabled = false then (.disabled, s)
  else
    let s1 := if s.ctxInit = false then initAudioContext s else s
    if (s1.norm.cache trackId).isSome then (.appliedCached, applyGain s1 el trackId)
    else
      let s2 := setNode s1 el ⟨1, 0.05⟩
      (.awaiting, { s2 with norm := (analyzeLUFSCall s2.norm trackId).2 })

/-- The continuation of analyzeAndApply after the await (lines 236-241):
a null result returns without touching any gain; otherwise the gain is
applied only when the element's src (read after the await) is nonempty
and still equals the analyzed url. -/
def analyzeAndApplyFinish (s : FacadeState) (el : Lane) (elSrc url : Url)
    (trackId : TrackId) (result : Option Measurement) : FacadeState :=
  match result with
  | none => s
  | some _ =>
    if elSrc ≠ "" ∧ elSrc = url then applyGain s el trackId else s

/-- The all-empty initial cache state. -/
def initialNorm : NormState := ⟨fun _ => none, fun _ => false⟩

/-- A cache state in which only track "t" has a pending analysis. -/
def inflightNorm : NormState := ⟨fun _ => none, fun u => decide (u = "t")⟩

/-- A facade state with the context initialized, used to instantiate
theorems at concrete inputs. -/
def sampleFacade : FacadeState := ⟨true, -14, true, ⟨1, 0⟩, ⟨1, 0⟩, initialNorm⟩

/-- A disabled facade state whose two lanes hold non-unity gains. -/
def disabledFacade : FacadeState := ⟨false, -14, true, ⟨2, 0⟩, ⟨3, 0⟩, initialNorm⟩

/-- A nonzero but very quiet buffer: one channel of two samples at
amplitude 1e-6 (sample rate 5, so the block length is 2 samples and the
single block's power lies far below the absolute gate). -/
def cexBuf : AudioBuffer := ⟨5, 2, [[1e-6, 1e-6]]⟩

/-- A digitally silent two-sample buffer at the same geometry. -/
def silentBuf : AudioBuffer := ⟨5, 2, [[0, 0]]⟩

/-- A full-scale two-sample buffer whose single block power passes the
absolute gate. -/
def loudBuf : AudioBuffer := ⟨5, 2, [[1, 1]]⟩

/-- A buffer shorter than one block (one sample, block length 2). -/
def shortBuf : AudioBuffer := ⟨5, 1, [[0]]⟩

/-- Logarithm base 10 of an inverse power of ten. -/
lemma logb_ten_pow_neg (n : ℕ) : Real.logb 10 (((10 : ℝ) ^ n)⁻¹) = -(n : ℝ) := by
  rw [← Real.rpow_natCast 10 n, ← Real.rpow_neg (by norm_num : (0 : ℝ) ≤ 10)]
  exact Real.logb_rpow (by norm_num) (by norm_num)

/-- Logarithm base 10 of 1/100. -/
lemma logb_hundredth : Real.logb 10 ((1 : ℝ) / 100) = -2 := by
  rw [show (1 : ℝ) / 100 = ((10 : ℝ) ^ (2 : ℕ))⁻¹ by norm_num]
  simpa using logb_ten_pow_neg 2

/-- Logarithm base 10 of the 1e-10 epsilon floor. -/
lemma logb_epsilon : Real.logb 10 (1e-10 : ℝ) = -10 := by
  rw [show (1e-10 : ℝ) = ((10 : ℝ) ^ (10 : ℕ))⁻¹ by norm_num]
  simpa using logb_ten_pow_neg 10

/-- The clamped gain never exceeds the peak-ceiling bound
PEAK_CEILING - peakDBFS. -/
lemma clampedGainDB_le_max (target lufs peak : ℝ) :
    clampedGainDB target lufs peak ≤ PEAK_CEILING - peakDBFS peak := by
  simp only [clampedGainDB]
  split_ifs with h
  · exact le_rfl
  · exact le_of_not_lt h

/-- The clamped gain is antitone in the measured loudness. -/
lemma clampedGainDB_mono (target peak : ℝ) {l1 l2 : ℝ} (h : l1 ≤ l2) :
    clampedGainDB target l2 peak ≤ clampedGainDB target l1 peak := by
  simp only [clampedGainDB]
  split_ifs <;> linarith

/-- C4: computeGain returns exactly unity (1.0) when no measurement is
cached for the identifier, when the cached measurement's lufs is the
-Infinity silence sentinel, and when the gain in dB remaining after the
peak-ceiling clamp exceeds the hard 24 dB cap. -/
theorem computeGain_unity (target lufs peak : ℝ) :
    computeGain target none = 1 ∧
    computeGain target (some ⟨none, peak⟩) = 1 ∧
    (24 < clampedGainDB target lufs peak →
      computeGain target (some ⟨some lufs, peak⟩) = 1) := by
  refine ⟨rfl, rfl, fun h => ?_⟩
  simp only [computeGain]
  rw [if_pos h]

/-- Witness for computeGain_unity at target -14, lufs -60, peak 1/100:
the clamped gain is 39.5 dB, above the 24 dB cap, so the gain is unity. -/
theorem computeGain_unity_witness :
    24 < clampedGainDB (-14) (-60) (1 / 100) ∧
    computeGain (-14) (some ⟨some (-60), 1 / 100⟩) = 1 := by
  have h : 24 < clampedGainDB (-14) (-60) (1 / 100) := by
    norm_num [clampedGainDB, peakDBFS, PEAK_CEILING, logb_hundredth]
  exact ⟨h, (computeGain_unity (-14) (-60) (1 / 100)).2.2 h⟩

/-- C1: for every cached measurement with finite lufs and peak in [0,1]
and every target, the returned gain satisfies peakDb + gainDb ≤
PEAK_CEILING, where gainDb = 20*log10(gain) and peakDb =
20*log10(max(peak, 1e-10)): the post-gain sample peak never exceeds the
-0.5 dBFS ceiling. -/
theorem computeGain_peakCeiling (target lufs peak : ℝ)
    (h0 : 0 ≤ peak) (h1 : peak ≤ 1) :
    20 * Real.logb 10 (max peak 1e-10) +
      20 * Real.logb 10 (computeGain target (some ⟨some lufs, peak⟩)) ≤
    PEAK_CEILING := by
  have hle := clampedGainDB_le_max target lufs peak
  simp only [computeGain]
  by_cases hcap : 24 < clampedGainDB target lufs peak
  · rw [if_pos hcap, Real.logb_one]
    by_cases hp : (1e-10 : ℝ) ≤ peak
    · rw [max_eq_left hp]
      have hpeak0 : peak ≠ 0 := ne_of_gt (lt_of_lt_of_le (by norm_num) hp)
      have hpd : peakDBFS peak = 20 * Real.logb 10 peak := by
        simp [peakDBFS, hpeak0]
      rw [hpd] at hle
      unfold PEAK_CEILING at hle ⊢
      linarith
    · rw [max_eq_right (le_of_not_le hp), logb_epsilon]
      unfold PEAK_CEILING
      linarith
  · rw [if_neg hcap,
      Real.logb_rpow (by norm_num : (0 : ℝ) < 10) (by norm_num : (10 : ℝ) ≠ 1)]
    have hg : 20 * (clampedGainDB target lufs peak / 20) =
        clampedGainDB target lufs peak := by ring
    rw [hg]
    by_cases hp : (1e-10 : ℝ) ≤ peak
    · rw [max_eq_left hp]
      have hpeak0 : peak ≠ 0 := ne_of_gt (lt_of_lt_of_le (by norm_num) hp)
      have hpd : peakDBFS peak = 20 * Real.logb 10 peak := by
        simp [peakDBFS, hpeak0]
      rw [hpd] at hle
      linarith
    · rw [max_eq_right (le_of_not_le hp), logb_epsilon]
      have h24 := le_of_not_lt hcap
      unfold PEAK_CEILING
      linarith

/-- Witness for computeGain_peakCeiling at target -14, lufs -10,
peak 1/2. -/
theorem computeGain_peakCeiling_witness :
    (0 : ℝ) ≤ 1 / 2 ∧ (1 / 2 : ℝ) ≤ 1 ∧
    20 * Real.logb 10 (max (1 / 2) 1e-10) +
      20 * Real.logb 10 (computeGain (-14) (some ⟨some (-10), 1 / 2⟩)) ≤
    PEAK_CEILING :=
  ⟨by norm_num, by norm_num,
    computeGain_peakCeiling (-14) (-10) (1 / 2) (by norm_num) (by norm_num)⟩

/-- C3 counterexample: at target -14 and fixed peak 1/100, the quieter
measurement (-40 LUFS, clamped gain 26 dB, above the 24 dB hard cap)
gets unity gain while the louder one (-30 LUFS, gain 16 dB) gets gain
10^0.8 > 1 — so a lower measured LUFS can yield a strictly smaller
gain, refuting monotonicity as claimed. -/
theorem computeGain_monotone_cex :
    computeGain (-14) (some ⟨some (-40), 1 / 100⟩) <
      computeGain (-14) (some ⟨some (-30), 1 / 100⟩) := by
  have hL : computeGain (-14) (some ⟨some (-40), 1 / 100⟩) = 1 := by
    have h : 24 < clampedGainDB (-14) (-40) (1 / 100) := by
      norm_num [clampedGainDB, peakDBFS, PEAK_CEILING, logb_hundredth]
    simp only [computeGain]
    rw [if_pos h]
  have h24 : ¬(24 < clampedGainDB (-14) (-30) (1 / 100)) := by
    norm_num [clampedGainDB, peakDBFS, PEAK_CEILING, logb_hundredth]
  have hval : clampedGainDB (-14) (-30) (1 / 100) = 16 := by
    norm_num [clampedGainDB, peakDBFS, PEAK_CEILING, logb_hundredth]
  have hR : computeGain (-14) (some ⟨some (-30), 1 / 100⟩) =
      (10 : ℝ) ^ ((16 : ℝ) / 20) := by
    simp only [computeGain]
    rw [if_neg h24, hval]
  rw [hL, hR]
  rw [Real.one_lt_rpow_iff_of_pos (by norm_num : (0 : ℝ) < 10)]
  exact Or.inl ⟨by norm_num, by norm_num⟩

/-- C3 amended: for fixed peak and finite lufs values l1 ≤ l2 at the
same target, whenever the quieter measurement's clamped gain does not
exceed the 24 dB hard cap (which would reset it to unity), the gain for
the quieter measurement is at least the gain for the louder one. -/
theorem computeGain_monotone (target peak : ℝ) {l1 l2 : ℝ} (h12 : l1 ≤ l2)
    (hcap : clampedGainDB target l1 peak ≤ 24) :
    computeGain target (some ⟨some l2, peak⟩) ≤
      computeGain target (some ⟨some l1, peak⟩) := by
  have hm := clampedGainDB_mono target peak h12
  have h1 : ¬(24 < clampedGainDB target l1 peak) := not_lt.mpr hcap
  have h2 : ¬(24 < clampedGainDB target l2 peak) :=
    not_lt.mpr (le_trans hm hcap)
  simp only [computeGain]
  rw [if_neg h1, if_neg h2,
    Real.rpow_le_rpow_left_iff (by norm_num : (1 : ℝ) < 10)]
  linarith

/-- Witness for computeGain_monotone at target -14, peak 1, lufs -20 and
-18: the quieter clamped gain is -0.5 dB, under the cap. -/
theorem computeGain_monotone_witness :
    ((-20 : ℝ) ≤ -18) ∧ clampedGainDB (-14) (-20) 1 ≤ 24 ∧
    computeGain (-14) (some ⟨some (-18), 1⟩) ≤
      computeGain (-14) (some ⟨some (-20), 1⟩) := by
  have hcap : clampedGainDB (-14) (-20) 1 ≤ 24 := by
    norm_num [clampedGainDB, peakDBFS, PEAK_CEILING, Real.logb_one]
  exact ⟨by norm_num, hcap, computeGain_monotone (-14) 1 (by norm_num) hcap⟩

/-- Joining calls: while an analysis for a track is in flight and not
yet cached, every further call joins it and leaves the state unchanged. -/
lemma runCalls_joined (id : TrackId) :
    ∀ (k : ℕ) (s : NormState), s.cache id = none → s.inflight id = true →
      runCalls s (List.replicate k id) = (List.replicate k CallResult.joined, s) := by
  intro k
  induction k with
  | zero => intro s hc hi; simp [runCalls]
  | succ n ih =>
    intro s hc hi
    have hcall : analyzeLUFSCall s id = (CallResult.joined, s) := by
      simp [analyzeLUFSCall, hc, hi]
    simp [List.replicate_succ, runCalls, hcall, ih s hc hi]

/-- C6: the cache keeps at most one in-flight computation per track id:
a cached id returns its measurement immediately with no state change and
no fetch; an in-flight id joins the pending computation; and n ≥ 1
concurrent calls for a fresh id produce exactly one `started` call (one
fetch+decode+compute) with all later callers joining it. -/
theorem analyzeLUFS_dedup (s : NormState) (id : TrackId) (m : Measurement)
    (n : ℕ) (hn : 1 ≤ n) :
    (s.cache id = some m → analyzeLUFSCall s id = (CallResult.cachedHit m, s)) ∧
    (s.cache id = none → s.inflight id = true →
      analyzeLUFSCall s id = (CallResult.joined, s)) ∧
    (s.cache id = none → s.inflight id = false →
      (runCalls s (List.replicate n id)).1 =
        CallResult.started :: List.replicate (n - 1) CallResult.joined ∧
      numFetches (runCalls s (List.replicate n id)).1 = 1) := by
  refine ⟨fun hc => by simp [analyzeLUFSCall, hc],
    fun hc hi => by simp [analyzeLUFSCall, hc, hi],
    fun hc hi => ?_⟩
  obtain ⟨k, rfl⟩ : ∃ k, n = k + 1 :=
    ⟨n - 1, (Nat.succ_pred_eq_of_pos hn).symm⟩
  set s1 : NormState :=
    { s with inflight := fun t => if t = id then true else s.inflight t } with hs1
  have hcall : analyzeLUFSCall s id = (CallResult.started, s1) := by
    simp [analyzeLUFSCall, hc, hi, hs1]
  have hs1c : s1.cache id = none := hc
  have hs1i : s1.inflight id = true := by simp [hs1]
  have hrest := runCalls_joined id k s1 hs1c hs1i
  constructor
  · simp [List.replicate_succ, runCalls, hcall, hrest]
  · simp [List.replicate_succ, runCalls, hcall, hrest, numFetches, fetchCount]

/-- Witness for analyzeLUFS_dedup: three concurrent calls for a fresh
track "t" from the empty state. -/
theorem analyzeLUFS_dedup_witness :
    (1 ≤ 3) ∧
    ((initialNorm.cache "t" = some ⟨none, 0⟩ →
        analyzeLUFSCall initialNorm "t" = (CallResult.cachedHit ⟨none, 0⟩, initialNorm)) ∧
      (initialNorm.cache "t" = none → initialNorm.inflight "t" = true →
        analyzeLUFSCall initialNorm "t" = (CallResult.joined, initialNorm)) ∧
      (initialNorm.cache "t" = none → initialNorm.inflight "t" = false →
        (runCalls initialNorm (List.replicate 3 "t")).1 =
          CallResult.started :: List.replicate (3 - 1) CallResult.joined ∧
        numFetches (runCalls initialNorm (List.replicate 3 "t")).1 = 1)) :=
  ⟨by norm_num, analyzeLUFS_dedup initialNorm "t" ⟨none, 0⟩ 3 (by norm_num)⟩

/-- C7: a failed analysis resolves to the no-measurement value null
instead of propagating, removes the in-flight marker, leaves the cache
untouched (nothing cached), lets a later call for the same id start a
fresh computation, and never reaches the gain path, which stays at
unity for an absent measurement; analyzeAndApply likewise returns
without touching any gain when the result is null. -/
theorem analyzeLUFS_failureHandling (s : NormState) (fs : FacadeState)
    (el : Lane) (elSrc url : Url) (id : TrackId) (t : ℝ)
    (hc : s.cache id = none) :
    (analyzeLUFSComplete s id .failure).1 = none ∧
    (analyzeLUFSComplete s id .failure).2.inflight id = false ∧
    (analyzeLUFSComplete s id .failure).2.cache = s.cache ∧
    (analyzeLUFSCall (analyzeLUFSComplete s id .failure).2 id).1 =
      CallResult.started ∧
    computeGain t ((analyzeLUFSComplete s id .failure).2.cache id) = 1 ∧
    analyzeAndApplyFinish fs el elSrc url id none = fs := by
  refine ⟨rfl, by simp [analyzeLUFSComplete], rfl, ?_, ?_, rfl⟩
  · simp [analyzeLUFSCall, analyzeLUFSComplete, hc]
  · simp [analyzeLUFSComplete, hc, computeGain]

/-- Witness for analyzeLUFS_failureHandling: the failure of the pending
analysis of track "t". -/
theorem analyzeLUFS_failureHandling_witness :
    inflightNorm.cache "t" = none ∧
    ((analyzeLUFSComplete inflightNorm "t" .failure).1 = none ∧
      (analyzeLUFSComplete inflightNorm "t" .failure).2.inflight "t" = false ∧
      (analyzeLUFSComplete inflightNorm "t" .failure).2.cache = inflightNorm.cache ∧
      (analyzeLUFSCall (analyzeLUFSComplete inflightNorm "t" .failure).2 "t").1 =
        CallResult.started ∧
      computeGain (-14) ((analyzeLUFSComplete inflightNorm "t" .failure).2.cache "t") = 1 ∧
      analyzeAndApplyFinish sampleFacade .A "a" "b" "t" none = sampleFacade) :=
  ⟨rfl, analyzeLUFS_failureHandling inflightNorm sampleFacade .A "a" "b" "t" (-14) rfl⟩

/-- C8: disabling the normalizer via setEnabled(false) schedules a ramp
of both lanes' gain nodes toward unity (time constant RAMP_TIME/3)
regardless of their prior gain, and while the flag is off every
analyzeAndApply call returns immediately with the whole state (gains,
cache, in-flight set) unchanged. -/
theorem setEnabled_disables (s : FacadeState) (el : Lane) (url : Url)
    (id : TrackId) (hctx : s.ctxInit = true) :
    (setEnabled s false).enabled = false ∧
    (setEnabled s false).nodeA = ⟨1, RAMP_TIME / 3⟩ ∧
    (setEnabled s false).nodeB = ⟨1, RAMP_TIME / 3⟩ ∧
    (s.enabled = false →
      analyzeAndApplyStart s el url id = (AAPhase.disabled, s)) := by
  refine ⟨?_, ?_, ?_, fun hd => by simp [analyzeAndApplyStart, hd]⟩ <;>
    simp [setEnabled, resetGain, setNode, hctx]

/-- Witness for setEnabled_disables on a disabled facade whose lanes
hold gains 2 and 3. -/
theorem setEnabled_disables_witness :
    disabledFacade.ctxInit = true ∧
    ((setEnabled disabledFacade false).enabled = false ∧
      (setEnabled disabledFacade false).nodeA = ⟨1, RAMP_TIME / 3⟩ ∧
      (setEnabled disabledFacade false).nodeB = ⟨1, RAMP_TIME / 3⟩ ∧
      (disabledFacade.enabled = false →
        analyzeAndApplyStart disabledFacade .A "u" "t" =
          (AAPhase.disabled, disabledFacade))) :=
  ⟨rfl, setEnabled_disables disabledFacade .A "u" "t" rfl⟩

/-- C10: after an asynchronous analysis completes, the computed gain is
applied to the lane only when the lane's element still carries the
analyzed content (its src, read after the await, is nonempty and equals
the analyzed url); if the content changed during analysis the
application is suppressed and the state — in particular the lane's gain
— is left unchanged. -/
theorem analyzeAndApply_staleGuard (s : FacadeState) (el : Lane)
    (elSrc url : Url) (id : TrackId) (m : Measurement)
    (result : Option Measurement) :
    (elSrc ≠ url → analyzeAndApplyFinish s el elSrc url id result = s) ∧
    (result = none → analyzeAndApplyFinish s el elSrc url id result = s) ∧
    (elSrc = url → elSrc ≠ "" → result = some m →
      analyzeAndApplyFinish s el elSrc url id result = applyGain s el id) := by
  refine ⟨fun hne => ?_, fun hnone => by subst hnone; rfl, fun he hne hr => ?_⟩
  · cases result with
    | none => rfl
    | some mm => simp [analyzeAndApplyFinish, hne]
  · subst he
    subst hr
    simp [analyzeAndApplyFinish, hne]

/-- Ten to a negative natural power. -/
lemma ten_rpow_neg_nat (n : ℕ) : (10 : ℝ) ^ (-(n : ℝ)) = ((10 : ℝ) ^ n)⁻¹ := by
  rw [Real.rpow_neg (by norm_num : (0 : ℝ) ≤ 10), Real.rpow_natCast]

/-- The absolute gate threshold is positive. -/
lemma absThreshold_pos : 0 < absThreshold :=
  Real.rpow_pos_of_pos (by norm_num) _

/-- The absolute gate threshold 10^(-6.9309) lies above 1e-7. -/
lemma one_e7_le_absThreshold : (1e-7 : ℝ) ≤ absThreshold := by
  unfold absThreshold ABSOLUTE_GATE
  rw [show (1e-7 : ℝ) = (10 : ℝ) ^ (-((7 : ℕ) : ℝ)) by
    rw [ten_rpow_neg_nat]; norm_num]
  rw [Real.rpow_le_rpow_left_iff (by norm_num : (1 : ℝ) < 10)]
  norm_num

/-- The absolute gate threshold 10^(-6.9309) lies below 1e-6. -/
lemma absThreshold_le_one_e6 : absThreshold ≤ (1e-6 : ℝ) := by
  unfold absThreshold ABSOLUTE_GATE
  rw [show (1e-6 : ℝ) = (10 : ℝ) ^ (-((6 : ℕ) : ℝ)) by
    rw [ten_rpow_neg_nat]; norm_num]
  rw [Real.rpow_le_rpow_left_iff (by norm_num : (1 : ℝ) < 10)]
  norm_num

/-- Characterization of the block loop: with a positive step and enough
fuel, the i-th entry exists exactly when the block starting at
start + i*step still fits, and holds that block's power. -/
lemma blockLoop_getElem (kw : List (List ℝ)) (bs st len : ℕ) (hst : 0 < st) :
    ∀ (fuel start : ℕ), len + 1 ≤ fuel + start →
      ∀ i : ℕ, (blockLoop kw bs st len start fuel)[i]? =
        if start + i * st + bs ≤ len then
          some (blockPowerAt kw bs (start + i * st))
        else none := by
  intro fuel
  induction fuel with
  | zero =>
    intro start hf i
    rw [if_neg (by omega)]
    simp [blockLoop]
  | succ f ih =>
    intro start hf i
    by_cases hfit : start + bs ≤ len
    · simp only [blockLoop, if_pos hfit]
      cases i with
      | zero => simp [hfit]
      | succ j =>
        rw [List.getElem?_cons_succ, ih (start + st) (by omega) j]
        have harg : start + st + j * st = start + (j + 1) * st := by ring
        rw [harg]
    · simp only [blockLoop, if_neg hfit]
      rw [if_neg (by omega)]
      simp

/-- If every block power is at or below the absolute gate threshold the
measurement is the silence result: lufs sentinel and peak 0 (the sample
peak scan of lines 145-152 is never reached). -/
lemma measureLUFS_eq_of_allGated (buf : AudioBuffer)
    (h : ∀ p ∈ blockPowersOf buf, p ≤ absThreshold) :
    measureLUFS buf = ⟨none, 0⟩ := by
  by_cases hb : blockPowersOf buf = []
  · simp [measureLUFS, hb]
  · have hu : ungatedOf (blockPowersOf buf) = [] := by
      unfold ungatedOf
      rw [List.filter_eq_nil_iff]
      intro a ha
      simp only [decide_eq_true_eq, not_lt]
      exact h a ha
    simp [measureLUFS, hb, hu]

/-- The 2-sample, 5 Hz geometry runs the loop exactly once: block length
2, step 1, one block at start 0. -/
lemma blockSamplesOf_five : blockSamplesOf 5 = 2 := by
  have h : jsRound (BLOCK_DURATION * (5 : ℕ)) = 2 := by
    unfold jsRound BLOCK_DURATION
    rw [Int.floor_eq_iff]
    constructor <;> norm_num
  unfold blockSamplesOf
  rw [h]
  rfl

/-- The step at sample rate 5 is round(2 * 0.25) = 1. -/
lemma stepSamplesOf_five : stepSamplesOf 5 = 1 := by
  unfold stepSamplesOf
  rw [blockSamplesOf_five]
  have h : jsRound ((2 : ℕ) * (1 - BLOCK_OVERLAP)) = 1 := by
    unfold jsRound BLOCK_OVERLAP
    rw [Int.floor_eq_iff]
    constructor <;> norm_num
  rw [h]
  rfl

/-- The block loop over a 2-sample signal with block 2, step 1. -/
lemma blockLoop_pair (kw : List (List ℝ)) :
    blockLoop kw 2 1 2 0 3 = [blockPowerAt kw 2 0] := rfl

/-- Block powers of a one-channel, two-sample buffer at rate 5. -/
lemma blockPowersOf_pair (x : ℝ) :
    blockPowersOf ⟨5, 2, [[x, x]]⟩ =
      [blockPowerAt (kWeightedOf ⟨5, 2, [[x, x]]⟩) 2 0] := by
  show blockLoop (kWeightedOf ⟨5, 2, [[x, x]]⟩) (blockSamplesOf 5)
    (stepSamplesOf 5) 2 0 3 = _
  rw [blockSamplesOf_five, stepSamplesOf_five]
  exact blockLoop_pair _

/-- K-weighting a one-channel pair buffer at the fallback rate. -/
lemma kWeightedOf_pair (x : ℝ) :
    kWeightedOf ⟨5, 2, [[x, x]]⟩ =
      [applyBiquad (applyBiquad [x, x] K_WEIGHTS_48000.shelf)
        K_WEIGHTS_48000.hp] := rfl

/-- A biquad on a two-sample input, unrolled. -/
lemma applyBiquad_pair (c : BiquadCoeffs) (x0 x1 : ℝ) :
    applyBiquad [x0, x1] c =
      [c.b0 * x0 + 0,
        c.b0 * x1 + (c.b1 * x0 - c.a1 * (c.b0 * x0 + 0) + 0)] := rfl

/-- Sum of squares over a full two-sample block. -/
lemma sumSqRange_pair (a b : ℝ) : sumSqRange [a, b] 0 2 = 0 + a * a + b * b := rfl

/-- The block power of a single channel. -/
lemma blockPowerAt_single (d : List ℝ) (bs start : ℕ) :
    blockPowerAt [d] bs start =
      channelWeight 0 * (sumSqRange d start bs / bs) := by
  simp [blockPowerAt, List.enum, List.enumFrom]

/-- Every block power of the quiet counterexample buffer is at or below
the absolute gate threshold. -/
lemma cex_blocks_le : ∀ p ∈ blockPowersOf cexBuf, p ≤ absThreshold := by
  intro p hp
  simp only [cexBuf] at hp
  rw [blockPowersOf_pair, List.mem_singleton] at hp
  subst hp
  rw [kWeightedOf_pair, applyBiquad_pair, applyBiquad_pair,
    blockPowerAt_single, sumSqRange_pair]
  refine le_trans ?_ one_e7_le_absThreshold
  norm_num [channelWeight, K_WEIGHTS_48000]

/-- Every block power of the silent buffer is at or below the absolute
gate threshold. -/
lemma silent_blocks_le : ∀ p ∈ blockPowersOf silentBuf, p ≤ absThreshold := by
  intro p hp
  simp only [silentBuf] at hp
  rw [blockPowersOf_pair, List.mem_singleton] at hp
  subst hp
  rw [kWeightedOf_pair, applyBiquad_pair, applyBiquad_pair,
    blockPowerAt_single, sumSqRange_pair]
  refine le_trans ?_ one_e7_le_absThreshold
  norm_num [channelWeight, K_WEIGHTS_48000]

/-- Every block power of the full-scale buffer is above the absolute
gate threshold. -/
lemma loud_block_gt : ∀ p ∈ blockPowersOf loudBuf, absThreshold < p := by
  intro p hp
  simp only [loudBuf] at hp
  rw [blockPowersOf_pair, List.mem_singleton] at hp
  subst hp
  rw [kWeightedOf_pair, applyBiquad_pair, applyBiquad_pair,
    blockPowerAt_single, sumSqRange_pair]
  refine lt_of_le_of_lt absThreshold_le_one_e6 ?_
  norm_num [channelWeight, K_WEIGHTS_48000]

/-- The full-scale buffer has absolute-gate survivors. -/
lemma loud_ungated_ne : ungatedOf (blockPowersOf loudBuf) ≠ [] := by
  intro hnil
  have hmem : blockPowerAt (kWeightedOf ⟨5, 2, [[1, 1]]⟩) 2 0 ∈
      blockPowersOf loudBuf := by
    simp only [loudBuf]
    rw [blockPowersOf_pair]
    exact List.mem_singleton_self _
  have hgt := loud_block_gt _ hmem
  have hin : blockPowerAt (kWeightedOf ⟨5, 2, [[1, 1]]⟩) 2 0 ∈
      ungatedOf (blockPowersOf loudBuf) := by
    unfold ungatedOf
    rw [List.mem_filter]
    exact ⟨hmem, decide_eq_true hgt⟩
  rw [hnil] at hin
  exact absurd hin (List.not_mem_nil _)

/-- In exact arithmetic the relative gate can never discard all blocks
once the absolute gate has survivors: the largest survivor exceeds the
relative threshold ungatedMean/10 (the line 139 branch is a
floating-point guard). -/
lemma gated_ne_of_ungated_ne (blocks : List ℝ)
    (hu : ungatedOf blocks ≠ []) : gatedOf blocks ≠ [] := by
  intro hg
  set U := ungatedOf blocks with hU
  have hUgt : ∀ u ∈ U, absThreshold < u := by
    intro u hu2
    rw [hU] at hu2
    unfold ungatedOf at hu2
    rw [List.mem_filter] at hu2
    exact of_decide_eq_true hu2.2
  have hlen : 0 < (U.length : ℝ) := by
    have h1 : 0 < U.length := List.length_pos.mpr hu
    exact_mod_cast h1
  have hsum : (U.length : ℝ) * absThreshold ≤ U.sum := by
    have h1 := List.card_nsmul_le_sum U absThreshold
      (fun x hx => le_of_lt (hUgt x hx))
    rwa [nsmul_eq_mul] at h1
  have hmean_pos : 0 < meanOf U := by
    unfold meanOf
    apply div_pos ?_ hlen
    calc (0 : ℝ) < (U.length : ℝ) * absThreshold :=
          mul_pos hlen absThreshold_pos
      _ ≤ U.sum := hsum
  have hrel : relThresholdOf blocks = meanOf U / 10 := by
    unfold relThresholdOf ungatedLUFSOf RELATIVE_GATE
    rw [← hU]
    rw [show (-0.691 + 10 * Real.logb 10 (meanOf U) + -10 + 0.691) / 10 =
      Real.logb 10 (meanOf U) - 1 by ring]
    rw [Real.rpow_sub (by norm_num : (0 : ℝ) < 10), Real.rpow_one,
      Real.rpow_logb (by norm_num) (by norm_num) hmean_pos]
  have hall : ∀ p ∈ blocks, p ≤ relThresholdOf blocks := by
    intro p hp
    by_contra hlt
    push_neg at hlt
    have hin : p ∈ gatedOf blocks := by
      unfold gatedOf
      rw [List.mem_filter]
      exact ⟨hp, decide_eq_true hlt⟩
    rw [hg] at hin
    exact absurd hin (List.not_mem_nil _)
  have hUle : ∀ u ∈ U, u ≤ relThresholdOf blocks := by
    intro u hu2
    apply hall
    rw [hU] at hu2
    unfold ungatedOf at hu2
    exact (List.mem_filter.mp hu2).1
  have hsum2 : U.sum ≤ (U.length : ℝ) * relThresholdOf blocks := by
    have h1 := List.sum_le_card_nsmul U (relThresholdOf blocks) hUle
    rwa [nsmul_eq_mul] at h1
  have hmean_le : meanOf U ≤ relThresholdOf blocks := by
    unfold meanOf
    rw [div_le_iff₀ hlen]
    linarith
  rw [hrel] at hmean_le
  linarith

/-- C2 counterexample: for the quiet nonzero buffer every block power
is at or below the absolute gate threshold, yet the measurement's peak
is 0 while the buffer's actual sample peak is 1e-6 ≠ 0 — refuting the
claim that peak equals the actual maximum absolute sample value. -/
theorem measureLUFS_peak_cex :
    (∀ p ∈ blockPowersOf cexBuf, p ≤ absThreshold) ∧
    samplePeak cexBuf = 1e-6 ∧
    (measureLUFS cexBuf).peak = 0 ∧ ((1e-6 : ℝ) ≠ 0) := by
  refine ⟨cex_blocks_le, ?_, ?_, by norm_num⟩
  · show List.foldl _ (0 : ℝ) [[1e-6, 1e-6]] = 1e-6
    simp only [List.foldl]
    rw [show |(1e-6 : ℝ)| = 1e-6 from abs_of_nonneg (by norm_num)]
    rw [max_eq_right (by norm_num : (0 : ℝ) ≤ 1e-6), max_self]
  · rw [measureLUFS_eq_of_allGated cexBuf cex_blocks_le]

/-- C2 amended: for every buffer whose block powers all lie at or below
the absolute gate threshold, measureLUFS returns lufs = -infinity and
peak = 0 — regardless of the buffer's actual sample peak, which is
never scanned on this path. -/
theorem measureLUFS_gatedSilence (buf : AudioBuffer)
    (h : ∀ p ∈ blockPowersOf buf, p ≤ absThreshold) :
    measureLUFS buf = ⟨none, 0⟩ :=
  measureLUFS_eq_of_allGated buf h

/-- Witness for measureLUFS_gatedSilence: the digitally silent buffer. -/
theorem measureLUFS_gatedSilence_witness :
    (∀ p ∈ blockPowersOf silentBuf, p ≤ absThreshold) ∧
    measureLUFS silentBuf = ⟨none, 0⟩ :=
  ⟨silent_blocks_le, measureLUFS_gatedSilence silentBuf silent_blocks_le⟩

/-- C5: with absolute-gate survivors present, the relative gate
threshold is 10^((ungatedLUFS - 10 + 0.691)/10) with ungatedLUFS
computed from the mean of the absolute-gate survivors; the relative
gate filters the full, un-discarded-yet block sequence (not only the
absolute-gate survivors); and if no block survived it, the result would
be lufs = ungatedLUFS with peak = 0 — a branch additionally proved
unreachable in exact arithmetic (fourth conjunct). -/
theorem measureLUFS_relativeGate (buf : AudioBuffer)
    (hb : blockPowersOf buf ≠ []) (hu : ungatedOf (blockPowersOf buf) ≠ []) :
    relThresholdOf (blockPowersOf buf) =
      (10 : ℝ) ^ (((-0.691 + 10 * Real.logb 10
          ((ungatedOf (blockPowersOf buf)).sum /
            ((ungatedOf (blockPowersOf buf)).length : ℝ))) - 10 + 0.691) / 10) ∧
    gatedOf (blockPowersOf buf) =
      (blockPowersOf buf).filter (fun p =>
        decide (relThresholdOf (blockPowersOf buf) < p)) ∧
    (gatedOf (blockPowersOf buf) = [] →
      measureLUFS buf = ⟨some (ungatedLUFSOf (blockPowersOf buf)), 0⟩) ∧
    gatedOf (blockPowersOf buf) ≠ [] := by
  have hg := gated_ne_of_ungated_ne (blockPowersOf buf) hu
  refine ⟨?_, rfl, fun h => absurd h hg, hg⟩
  unfold relThresholdOf ungatedLUFSOf meanOf RELATIVE_GATE
  congr 1
  try ring

/-- Witness for measureLUFS_relativeGate: the full-scale buffer has
blocks, absolute-gate survivors, and relative-gate survivors. -/
theorem measureLUFS_relativeGate_witness :
    blockPowersOf loudBuf ≠ [] ∧ ungatedOf (blockPowersOf loudBuf) ≠ [] ∧
    gatedOf (blockPowersOf loudBuf) ≠ [] := by
  have hb : blockPowersOf loudBuf ≠ [] := by
    simp only [loudBuf]
    rw [blockPowersOf_pair]
    exact List.cons_ne_nil _ _
  exact ⟨hb, loud_ungated_ne,
    (measureLUFS_relativeGate loudBuf hb loud_ungated_ne).2.2.2⟩

/-- C9: blocks are round(0.4 * sampleRate) samples long, stepped by the
rounded 25% of the block length (75% overlap); the block list holds
exactly one channel-weighted mean-square power per start position where
a full block fits; and an input shorter than one block yields an empty
block list and the silence measurement. -/
theorem measureLUFS_blockAccumulation (buf : AudioBuffer)
    (hst : 0 < stepSamplesOf buf.sampleRate) :
    blockSamplesOf buf.sampleRate =
      (jsRound ((0.4 : ℝ) * buf.sampleRate)).toNat ∧
    stepSamplesOf buf.sampleRate =
      (jsRound ((blockSamplesOf buf.sampleRate : ℝ) * (25 / 100))).toNat ∧
    (∀ i : ℕ, (blockPowersOf buf)[i]? =
      if i * stepSamplesOf buf.sampleRate + blockSamplesOf buf.sampleRate ≤
          buf.length
      then some (blockPowerAt (kWeightedOf buf) (blockSamplesOf buf.sampleRate)
        (i * stepSamplesOf buf.sampleRate))
      else none) ∧
    (buf.length < blockSamplesOf buf.sampleRate →
      blockPowersOf buf = [] ∧ measureLUFS buf = ⟨none, 0⟩) := by
  refine ⟨rfl, ?_, ?_, ?_⟩
  · unfold stepSamplesOf BLOCK_OVERLAP
    norm_num
  · intro i
    have h1 := blockLoop_getElem (kWeightedOf buf) (blockSamplesOf buf.sampleRate)
      (stepSamplesOf buf.sampleRate) buf.length hst (buf.length + 1) 0
      (by omega) i
    unfold blockPowersOf
    simpa using h1
  · intro hshort
    have hnil : blockPowersOf buf = [] := by
      have h0 := blockLoop_getElem (kWeightedOf buf) (blockSamplesOf buf.sampleRate)
        (stepSamplesOf buf.sampleRate) buf.length hst (buf.length + 1) 0
        (by omega) 0
      rw [if_neg (by omega)] at h0
      have hlen : (blockPowersOf buf).length ≤ 0 := by
        have h2 : (blockPowersOf buf)[0]? = none := h0
        exact List.getElem?_eq_none_iff.mp h2
      exact List.eq_nil_of_length_eq_zero (Nat.le_zero.mp hlen)
    exact ⟨hnil, by simp [measureLUFS, hnil]⟩

/-- Witness for measureLUFS_blockAccumulation: the one-sample buffer is
shorter than the two-sample block, so the block list is empty and the
measurement is silence. -/
theorem measureLUFS_blockAccumulation_witness :
    0 < stepSamplesOf shortBuf.sampleRate ∧
    shortBuf.length < blockSamplesOf shortBuf.sampleRate ∧
    (blockPowersOf shortBuf = [] ∧ measureLUFS shortBuf = ⟨none, 0⟩) := by
  have h1 : 0 < stepSamplesOf shortBuf.sampleRate := by
    show 0 < stepSamplesOf 5
    rw [stepSamplesOf_five]
    norm_num
  have h2 : shortBuf.length < blockSamplesOf shortBuf.sampleRate := by
    show (1 : ℕ) < blockSamplesOf 5
    rw [blockSamplesOf_five]
    norm_num
  exact ⟨h1, h2, (measureLUFS_blockAccumulation shortBuf h1).2.2.2 h2⟩

/-- Witness for analyzeAndApply_staleGuard: the lane's src "a" no longer
matches the analyzed url "b", so the state is unchanged. -/
theorem analyzeAndApply_staleGuard_witness :
    ("a" : Url) ≠ "b" ∧
    analyzeAndApplyFinish sampleFacade .A "a" "b" "t"
      (some ⟨some (-20), 1 / 2⟩) = sampleFacade :=
  ⟨by decide,
    (analyzeAndApply_staleGuard sampleFacade .A "a" "b" "t" ⟨some (-20), 1 / 2⟩
      (some ⟨some (-20), 1 / 2⟩)).1 (by decide)⟩

end

end LoudnessNormalizer
